import Mathlib

/-!
Verification development for the inferior process monitor
(ProcessMonitor, source/Host/android/LibcGlue.cpp).

The memory transfer loops, the wait-loop event classifier, the launch
bootstrap and the operation funnel are embedded as executable Lean
definitions, translated statement by statement from the C++ source.
Machine words are modelled as Nat with explicit reductions mod 256 where
the source extracts bytes from a word.
-/

set_option linter.unusedVariables false

/-- Host word size in bytes: the source uses sizeof(void*), i.e. 8 on the
64-bit hosts the code targets (the source FIXME acknowledges addresses are
hard-coded to 64 bits). -/
def wordSize : Nat := 8

/-- Byte extraction from a machine word, as in the source expression
(data >> i*8) & 0xFF. -/
def byteOfWord (d i : Nat) : Nat := d / 256 ^ i % 256

/-- Little-endian assembly of a machine word from bytes, as in the source
loop data |= (unsigned long)src[i] << i*8. -/
def wordOfBytes (l : List Nat) : Nat := l.foldr (fun b acc => b + 256 * acc) 0

/-- Inferior memory: a byte value at every address. -/
def Mem : Type := Nat → Nat

/-- Result of PTRACE_PEEKDATA at address a against memory M: the kernel
returns the word whose bytes are M a, M (a+1), ..., M (a+7), assembled
little-endian. -/
def peekWord (M : Mem) (a : Nat) : Nat :=
  wordOfBytes ((List.range wordSize).map (fun i => M (a + i)))

/-- Effect of PTRACE_POKEDATA of word d at address a: the 8 bytes of d
replace the bytes at addresses a..a+7. -/
def pokeWord (M : Mem) (a d : Nat) : Mem :=
  fun x => if a ≤ x ∧ x < a + wordSize then byteOfWord d (x - a) else M x

/-- Embedding of the static DoReadMemory loop. The ptrace peek primitive is
abstracted as an oracle returning either the peeked word or the errno the
failed call left behind. Each iteration peeks one word at vm_addr, copies
remainder = min(word_size, size - bytes_read) bytes into the destination,
and advances by the word size; a failed peek aborts the loop at once,
returning the bytes copied so far together with the captured errno (the
source stores it in the caller's Error slot via SetErrorToErrno). -/
def DoReadMemory (peek : Nat → Except Nat Nat) (vm_addr remaining : Nat) :
    List Nat × Option Nat :=
  if h : remaining = 0 then ([], none)
  else
    match peek vm_addr with
    | Except.error e => ([], some e)
    | Except.ok data =>
      let r := min wordSize remaining
      let rest := DoReadMemory peek (vm_addr + wordSize) (remaining - r)
      ((List.range r).map (fun i => byteOfWord data i) ++ rest.1, rest.2)
termination_by remaining
decreasing_by simp [wordSize]; omega

/-- Embedding of the static DoWriteMemory loop on the success path (every
ptrace call succeeds), acting on the inferior memory directly. A full-word
chunk assembles the next 8 source bytes and pokes them; a trailing chunk
shorter than a word first reads the target word through DoReadMemory (peek
of the 8 bytes at vm_addr), overlays the requested bytes over its front
(memcpy(buff, src, remainder)) and writes the whole word back through the
recursive full-word path. -/
def DoWriteMemory (M : Mem) (vm_addr : Nat) (src : List Nat) : Mem :=
  if h0 : src.length = 0 then M
  else if h8 : wordSize ≤ src.length then
    DoWriteMemory (pokeWord M vm_addr (wordOfBytes (src.take wordSize)))
      (vm_addr + wordSize) (src.drop wordSize)
  else
    pokeWord M vm_addr
      (wordOfBytes (src ++
        ((List.range wordSize).map (fun i => byteOfWord (peekWord M vm_addr) i)).drop
          src.length))
termination_by src.length
decreasing_by simp [wordSize]; omega

/-- Peek oracle induced by a concrete memory: every peek succeeds and
returns the assembled word, as ptrace does on readable memory. -/
def memPeek (M : Mem) : Nat → Except Nat Nat :=
  fun a => Except.ok (peekWord M a)

theorem byteOfWord_lt (d i : Nat) : byteOfWord d i < 256 :=
  Nat.mod_lt _ (by norm_num)

theorem byteOfWord_wordOfBytes (l : List Nat) (hl : ∀ b ∈ l, b < 256)
    (i : Nat) (hi : i < l.length) : byteOfWord (wordOfBytes l) i = l[i] := by
  induction l generalizing i with
  | nil => simp at hi
  | cons b t ih =>
    have hb : b < 256 := hl b (by simp)
    cases i with
    | zero =>
      simp only [wordOfBytes, List.foldr_cons, byteOfWord, pow_zero, Nat.div_one,
        List.getElem_cons_zero]
      rw [Nat.add_mul_mod_self_left, Nat.mod_eq_of_lt hb]
    | succ i =>
      simp only [List.getElem_cons_succ]
      have step : byteOfWord (wordOfBytes (b :: t)) (i + 1) = byteOfWord (wordOfBytes t) i := by
        simp only [byteOfWord, wordOfBytes, List.foldr_cons, pow_succ, pow_zero]
        rw [Nat.mul_comm (256 ^ i) 256, ← Nat.div_div_eq_div_mul]
        congr 2
        rw [Nat.add_mul_div_left _ _ (by norm_num : (0:ℕ) < 256),
          Nat.div_eq_of_lt hb, Nat.zero_add]
      rw [step]
      exact ih (fun x hx => hl x (by simp [hx])) i (by simpa using hi)

theorem peekWord_byte (M : Mem) (a : Nat) (hM : ∀ x, M x < 256)
    (i : Nat) (hi : i < wordSize) : byteOfWord (peekWord M a) i = M (a + i) := by
  have hlen : i < ((List.range wordSize).map (fun j => M (a + j))).length := by
    simpa using hi
  rw [peekWord, byteOfWord_wordOfBytes _ (by intro b hb; simp at hb; obtain ⟨j, _, hj⟩ := hb; exact hj ▸ hM _) i hlen]
  simp

theorem wordSize_eq : wordSize = 8 := rfl

theorem pokeWord_lt (M : Mem) (a d : Nat) (hM : ∀ x, M x < 256) (x : Nat) :
    pokeWord M a d x < 256 := by
  unfold pokeWord
  split
  · exact byteOfWord_lt _ _
  · exact hM x

theorem overlay_getElem_hi (src : List Nat) (g : Nat → Nat) (j : Nat)
    (hj1 : src.length ≤ j) (hj2 : j < wordSize)
    (h : j < (src ++ ((List.range wordSize).map g).drop src.length).length) :
    (src ++ ((List.range wordSize).map g).drop src.length)[j] = g j := by
  rw [List.getElem_append_right hj1, List.getElem_drop]
  simp only [List.getElem_map, List.getElem_range]
  congr 1
  omega

theorem overlay_getElem_lo (src : List Nat) (g : Nat → Nat) (j : Nat)
    (hj : j < src.length)
    (h : j < (src ++ ((List.range wordSize).map g).drop src.length).length) :
    (src ++ ((List.range wordSize).map g).drop src.length)[j] = src[j] :=
  List.getElem_append_left hj

theorem overlay_length (src : List Nat) (g : Nat → Nat) (h : src.length < wordSize) :
    (src ++ ((List.range wordSize).map g).drop src.length).length = wordSize := by
  simp
  omega

theorem overlay_all_lt (src : List Nat) (M : Mem) (a : Nat) (hs : ∀ b ∈ src, b < 256) :
    ∀ b ∈ src ++ ((List.range wordSize).map
      (fun i => byteOfWord (peekWord M a) i)).drop src.length, b < 256 := by
  intro b hb
  rcases List.mem_append.mp hb with h | h
  · exact hs b h
  · obtain ⟨i, hi, rfl⟩ := by simpa using List.mem_of_mem_drop h
    exact byteOfWord_lt _ _

theorem DoWriteMemory_frame (M : Mem) (vm_addr : Nat) (src : List Nat)
    (hM : ∀ x, M x < 256) (hs : ∀ b ∈ src, b < 256) (x : Nat)
    (hx : x < vm_addr ∨ vm_addr + src.length ≤ x) :
    DoWriteMemory M vm_addr src x = M x := by
  induction M, vm_addr, src using DoWriteMemory.induct with
  | case1 M a src h0 =>
    rw [DoWriteMemory]
    simp [h0]
  | case2 M a src h0 h8 ih =>
    rw [DoWriteMemory]
    simp only [dif_neg h0, dif_pos h8]
    have hM2 : ∀ y, pokeWord M a (wordOfBytes (src.take wordSize)) y < 256 :=
      fun y => pokeWord_lt _ _ _ hM y
    have hs2 : ∀ b ∈ src.drop wordSize, b < 256 := fun b hb => hs b (List.mem_of_mem_drop hb)
    have hx2 : x < a + wordSize ∨ (a + wordSize) + (src.drop wordSize).length ≤ x := by
      rw [List.length_drop]
      rcases hx with h | h
      · exact Or.inl (by omega)
      · exact Or.inr (by omega)
    rw [ih hM2 hs2 hx2]
    have hout : ¬(a ≤ x ∧ x < a + wordSize) := by
      rcases hx with h | h
      · omega
      · have := h8
        omega
    simp [pokeWord, hout]
  | case3 M a src h0 h8 =>
    rw [DoWriteMemory]
    simp only [dif_neg h0, dif_neg h8]
    by_cases hin : a ≤ x ∧ x < a + wordSize
    · -- x lies in the tail of the final word, beyond the requested range:
      -- the byte written back is the one the peek read out of M.
      have hxr : a + src.length ≤ x := by
        rcases hx with h | h <;> omega
      have hlen2 := overlay_length src (fun i => byteOfWord (peekWord M a) i) (by omega)
      have hall2 := overlay_all_lt src M a hs
      have hj : x - a < (src ++ ((List.range wordSize).map
          (fun i => byteOfWord (peekWord M a) i)).drop src.length).length := by omega
      have hpk : pokeWord M a (wordOfBytes (src ++ ((List.range wordSize).map
          (fun i => byteOfWord (peekWord M a) i)).drop src.length)) x =
          byteOfWord (wordOfBytes (src ++ ((List.range wordSize).map
            (fun i => byteOfWord (peekWord M a) i)).drop src.length)) (x - a) := by
        simp [pokeWord, hin]
      rw [hpk, byteOfWord_wordOfBytes _ hall2 _ hj,
        overlay_getElem_hi src _ _ (by omega) (by omega),
        peekWord_byte M a hM _ (by omega)]
      congr 1
      omega
    · simp [pokeWord, hin]

theorem DoWriteMemory_byte (M : Mem) (vm_addr : Nat) (src : List Nat)
    (hM : ∀ x, M x < 256) (hs : ∀ b ∈ src, b < 256) :
    ∀ j, (hj : j < src.length) →
      DoWriteMemory M vm_addr src (vm_addr + j) = src[j] := by
  induction M, vm_addr, src using DoWriteMemory.induct with
  | case1 M a src h0 =>
    intro j hj
    omega
  | case2 M a src h0 h8 ih =>
    intro j hj
    rw [DoWriteMemory]
    simp only [dif_neg h0, dif_pos h8]
    have hM2 : ∀ y, pokeWord M a (wordOfBytes (src.take wordSize)) y < 256 :=
      fun y => pokeWord_lt _ _ _ hM y
    have hs2 : ∀ b ∈ src.drop wordSize, b < 256 := fun b hb => hs b (List.mem_of_mem_drop hb)
    by_cases hjw : j < wordSize
    · -- the byte lies in the first full word; the recursive call never
      -- touches addresses below vm_addr + wordSize
      have hfr : DoWriteMemory (pokeWord M a (wordOfBytes (src.take wordSize)))
          (a + wordSize) (src.drop wordSize) (a + j) =
          pokeWord M a (wordOfBytes (src.take wordSize)) (a + j) :=
        DoWriteMemory_frame _ _ _ hM2 hs2 _ (Or.inl (by omega))
      rw [hfr]
      have hin : a ≤ a + j ∧ a + j < a + wordSize := by omega
      have htall : ∀ b ∈ src.take wordSize, b < 256 := fun b hb => hs b (List.mem_of_mem_take hb)
      have hjl : j < (src.take wordSize).length := by
        simp
        omega
      simp only [pokeWord, hin, and_self, if_true]
      have hsub : a + j - a = j := by omega
      rw [hsub, byteOfWord_wordOfBytes _ htall _ hjl, List.getElem_take]
    · have hj2 : j - wordSize < (src.drop wordSize).length := by
        simp
        omega
      have haddr : a + j = (a + wordSize) + (j - wordSize) := by omega
      rw [haddr, ih hM2 hs2 _ hj2, List.getElem_drop]
      congr 1
      omega
  | case3 M a src h0 h8 =>
    intro j hj
    rw [DoWriteMemory]
    simp only [dif_neg h0, dif_neg h8]
    have hlen2 := overlay_length src (fun i => byteOfWord (peekWord M a) i) (by omega)
    have hall2 := overlay_all_lt src M a hs
    have hin : a ≤ a + j ∧ a + j < a + wordSize := by omega
    have hjl : j < (src ++ ((List.range wordSize).map
        (fun i => byteOfWord (peekWord M a) i)).drop src.length).length := by omega
    simp only [pokeWord, hin, and_self, if_true]
    have hsub : a + j - a = j := by omega
    rw [hsub, byteOfWord_wordOfBytes _ hall2 _ hjl,
      overlay_getElem_lo src _ _ hj]

theorem DoWriteMemory_lt (M : Mem) (vm_addr : Nat) (src : List Nat)
    (hM : ∀ x, M x < 256) (hs : ∀ b ∈ src, b < 256) (x : Nat) :
    DoWriteMemory M vm_addr src x < 256 := by
  by_cases hin : vm_addr ≤ x ∧ x < vm_addr + src.length
  · have hx : x = vm_addr + (x - vm_addr) := by omega
    rw [hx, DoWriteMemory_byte M vm_addr src hM hs _ (by omega)]
    exact hs _ (List.getElem_mem _)
  · rw [DoWriteMemory_frame M vm_addr src hM hs x (by omega)]
    exact hM x

theorem DoReadMemory_memPeek (M : Mem) (hM : ∀ x, M x < 256) :
    ∀ remaining vm_addr, DoReadMemory (memPeek M) vm_addr remaining =
      ((List.range remaining).map (fun j => M (vm_addr + j)), none) := by
  intro remaining
  induction remaining using Nat.strong_induction_on with
  | _ n ih =>
    intro a
    rw [DoReadMemory]
    by_cases h : n = 0
    · simp [h]
    · simp only [dif_neg h, memPeek]
      have hrec := ih (n - min wordSize n) (by rw [wordSize_eq]; omega) (a + wordSize)
      rw [hrec]
      refine Prod.ext ?_ rfl
      simp only
      have hsplit : n = min wordSize n + (n - min wordSize n) := by
        rw [wordSize_eq]
        omega
      conv_rhs => rw [hsplit, List.range_add, List.map_append, List.map_map]
      congr 1
      · refine List.map_congr_left ?_
        intro i hi
        simp only [List.mem_range] at hi
        exact peekWord_byte M a hM i (by rw [wordSize_eq] at *; omega)
      · refine List.map_congr_left ?_
        intro j hj
        simp only [List.mem_range] at hj
        simp only [Function.comp_apply]
        congr 1
        rw [wordSize_eq] at *
        omega

/-- Claim C3. Memory round-trip: for every byte sequence B and every
address A, on the success path a WriteMemory(A, B, n) through the word-wise
DoWriteMemory loop followed by ReadMemory(A, n) through DoReadMemory
returns exactly B with no error, for every length n = B.length regardless
of n modulo the host word size (the model covers aligned and unaligned A
uniformly, since the loops never inspect A modulo the word size). -/
theorem writeMemory_readMemory_roundtrip (M : Mem) (A : Nat) (B : List Nat)
    (hM : ∀ x, M x < 256) (hB : ∀ b ∈ B, b < 256) :
    DoReadMemory (memPeek (DoWriteMemory M A B)) A B.length = (B, none) := by
  rw [DoReadMemory_memPeek (DoWriteMemory M A B) (DoWriteMemory_lt M A B hM hB) B.length A]
  refine Prod.ext ?_ rfl
  simp only
  refine List.ext_getElem (by simp) ?_
  intro i hi1 hi2
  simp only [List.getElem_map, List.getElem_range]
  exact DoWriteMemory_byte M A B hM hB i hi2

/-- Witness for claim C3 at a concrete unaligned 9-byte write. -/
theorem writeMemory_readMemory_roundtrip_witness :
    ((∀ x, (fun _ => 0 : Mem) x < 256) ∧ (∀ b ∈ [17, 2, 3, 255, 5, 6, 7, 8, 9], b < 256)) ∧
    DoReadMemory (memPeek (DoWriteMemory (fun _ => 0) 3 [17, 2, 3, 255, 5, 6, 7, 8, 9])) 3
      (List.length [17, 2, 3, 255, 5, 6, 7, 8, 9]) = ([17, 2, 3, 255, 5, 6, 7, 8, 9], none) :=
  ⟨⟨fun x => by norm_num, by decide⟩,
    writeMemory_readMemory_roundtrip (fun _ => 0) 3 [17, 2, 3, 255, 5, 6, 7, 8, 9]
      (fun x => by norm_num) (by decide)⟩

/-- Claim C4. Frame property of WriteMemory: every byte of inferior memory
outside the written range keeps its prior value, in particular the bytes at
A-1 and A+n, including when the transfer ends in a partial word (which the
loop handles by peeking the target word, overlaying the requested bytes and
poking the word back). -/
theorem writeMemory_frame (M : Mem) (A : Nat) (B : List Nat)
    (hM : ∀ x, M x < 256) (hB : ∀ b ∈ B, b < 256) (x : Nat)
    (hx : x < A ∨ A + B.length ≤ x) :
    DoWriteMemory M A B x = M x :=
  DoWriteMemory_frame M A B hM hB x hx

/-- Witness for claim C4: a one-byte write at 0x4000 leaves the bytes at
0x3FFF and 0x4001 unchanged. -/
theorem writeMemory_frame_witness :
    ((∀ x, (fun y => y % 251 % 256 : Mem) x < 256) ∧ (∀ b ∈ [171], b < 256) ∧
      ((0x3FFF : Nat) < 0x4000 ∨ 0x4000 + List.length [171] ≤ 0x3FFF) ∧
      ((0x4001 : Nat) < 0x4000 ∨ 0x4000 + List.length [171] ≤ 0x4001)) ∧
    DoWriteMemory (fun y => y % 251 % 256) 0x4000 [171] 0x3FFF =
      (fun y => y % 251 % 256 : Mem) 0x3FFF ∧
    DoWriteMemory (fun y => y % 251 % 256) 0x4000 [171] 0x4001 =
      (fun y => y % 251 % 256 : Mem) 0x4001 :=
  ⟨⟨fun x => Nat.mod_lt _ (by norm_num), by decide, by norm_num, by norm_num⟩,
    writeMemory_frame (fun y => y % 251 % 256) 0x4000 [171]
      (fun x => Nat.mod_lt _ (by norm_num)) (by decide) 0x3FFF (by norm_num),
    writeMemory_frame (fun y => y % 251 % 256) 0x4000 [171]
      (fun x => Nat.mod_lt _ (by norm_num)) (by decide) 0x4001 (by norm_num)⟩

/-- Claim C7. Read failure semantics: if the peeks at the first k word
addresses succeed and the peek at word k fails with errno e while the loop
still has bytes to fetch, the loop aborts at once, the caller sees the
captured errno in the error slot, and the returned byte count is exactly
k * wordSize, the number of bytes copied before the failing peek. -/
theorem readMemory_error_abort (peek : Nat → Except Nat Nat) (A n k e : Nat)
    (hok : ∀ j, j < k → ∃ d, peek (A + wordSize * j) = Except.ok d)
    (hfail : peek (A + wordSize * k) = Except.error e)
    (hn : wordSize * k < n) :
    (DoReadMemory peek A n).1.length = wordSize * k ∧
      (DoReadMemory peek A n).2 = some e := by
  induction k generalizing A n with
  | zero =>
    rw [DoReadMemory]
    have hn0 : ¬n = 0 := by omega
    simp only [dif_neg hn0]
    simp only [Nat.mul_zero, Nat.add_zero] at hfail
    rw [hfail]
    simp
  | succ k ih =>
    rw [DoReadMemory]
    have hn0 : ¬n = 0 := by rw [wordSize_eq] at hn; omega
    simp only [dif_neg hn0]
    obtain ⟨d, hd⟩ := hok 0 (by omega)
    simp only [Nat.mul_zero, Nat.add_zero] at hd
    rw [hd]
    have hmin : min wordSize n = wordSize := by rw [wordSize_eq] at hn ⊢; omega
    have hok2 : ∀ j, j < k → ∃ d2, peek ((A + wordSize) + wordSize * j) = Except.ok d2 := by
      intro j hjk
      have hj1 := hok (j + 1) (by omega)
      have harith : A + wordSize * (j + 1) = (A + wordSize) + wordSize * j := by ring
      rwa [harith] at hj1
    have hfail2 : peek ((A + wordSize) + wordSize * k) = Except.error e := by
      have harith : A + wordSize * (k + 1) = (A + wordSize) + wordSize * k := by ring
      rwa [harith] at hfail
    have hn2 : wordSize * k < n - min wordSize n := by rw [wordSize_eq] at hn ⊢; omega
    obtain ⟨ihl, ihr⟩ := ih (A + wordSize) (n - min wordSize n) hok2 hfail2 hn2
    rw [hmin] at ihl ihr
    constructor
    · simp only [List.length_append, List.length_map, List.length_range, hmin, ihl]
      ring
    · simpa [hmin] using ihr

/-- Witness for claim C7 at a concrete failing oracle: the first two peeks
succeed, the third fails with errno 14 (EFAULT), and a 20-byte read aborts
with byte count 16 and the captured errno in the error slot. -/
theorem readMemory_error_abort_witness :
    ((∀ j, j < 2 → ∃ d, (fun a => if a < 21 then Except.ok (a + 1) else Except.error 14)
        (5 + wordSize * j) = Except.ok d) ∧
      (fun a => if a < 21 then Except.ok (a + 1) else Except.error 14)
        (5 + wordSize * 2) = Except.error 14 ∧ wordSize * 2 < 20) ∧
    (DoReadMemory (fun a => if a < 21 then Except.ok (a + 1) else Except.error 14) 5 20).1.length =
      wordSize * 2 ∧
    (DoReadMemory (fun a => if a < 21 then Except.ok (a + 1) else Except.error 14) 5 20).2 =
      some 14 :=
  ⟨⟨fun j hj => by interval_cases j <;> exact ⟨_, rfl⟩, rfl, by decide⟩,
    readMemory_error_abort (fun a => if a < 21 then Except.ok (a + 1) else Except.error 14)
      5 20 2 14 (fun j hj => by interval_cases j <;> exact ⟨_, rfl⟩) rfl (by decide)⟩

/-! Constants used by the wait-loop event classifier, with the values the
Linux headers give them on the targeted platforms. -/

/-- Signal number of SIGTRAP. -/
def SIGTRAP : Nat := 5

/-- Signal number of SIGSTOP. -/
def SIGSTOP : Nat := 19

/-- Signal number of SIGSEGV. -/
def SIGSEGV : Nat := 11

/-- Signal number of SIGILL. -/
def SIGILL : Nat := 4

/-- Signal number of SIGFPE. -/
def SIGFPE : Nat := 8

/-- Signal number of SIGBUS. -/
def SIGBUS : Nat := 7

/-- Errno value EINVAL. -/
def EINVAL : Nat := 22

/-- si_code value SI_USER (signal sent by kill). -/
def SI_USER : Int := 0

/-- si_code value SI_TKILL (signal sent by tkill or tgkill). -/
def SI_TKILL : Int := -6

/-- si_code value SI_KERNEL. -/
def SI_KERNEL : Int := 128

/-- si_code value TRAP_TRACE. -/
def TRAP_TRACE : Int := 2

/-- si_code value TRAP_BRKPT. -/
def TRAP_BRKPT : Int := 1

/-- si_code value TRAP_HWBKPT (defined to 4 by the source when absent). -/
def TRAP_HWBKPT : Int := 4

/-- Case label SIGTRAP with PTRACE_EVENT_CLONE shifted left by 8 or-ed in:
5 + 3 * 256. -/
def sigtrapCloneCode : Int := 773

/-- Case label SIGTRAP with PTRACE_EVENT_EXEC shifted left by 8 or-ed in:
5 + 4 * 256. -/
def sigtrapExecCode : Int := 1029

/-- Case label SIGTRAP with PTRACE_EVENT_EXIT shifted left by 8 or-ed in:
5 + 6 * 256. -/
def sigtrapExitCode : Int := 1541

/-- Case label for a plain SIGTRAP si_code (system-call stop). -/
def sigtrapSyscallCode : Int := 5

/-- Case label SIGTRAP or-ed with 0x80 (system-call stop under
TRACESYSGOOD): 5 + 128. -/
def sigtrapSyscallTracedCode : Int := 133

/-- Fields of siginfo_t the classifier reads. -/
structure Siginfo where
  si_signo : Nat
  si_code : Int
  si_pid : Nat
  si_addr : Nat
deriving DecidableEq

/-- Vocabulary of messages the monitor sends to the process object
(tagged union per ProcessMessage), plus the default-constructed invalid
kind a freshly declared ProcessMessage has before any case assigns it. -/
inductive ProcessMessage where
  | invalid : ProcessMessage
  | exit (pid status : Nat) : ProcessMessage
  | limbo (pid code : Nat) : ProcessMessage
  | trace (pid : Nat) : ProcessMessage
  | breakMsg (pid : Nat) : ProcessMessage
  | watch (pid addr : Nat) : ProcessMessage
  | crash (pid reason signo addr : Nat) : ProcessMessage
  | newThread (pid tid : Nat) : ProcessMessage
  | execMsg (pid : Nat) : ProcessMessage
  | signal (pid signo : Nat) : ProcessMessage
  | signalDelivered (pid signo : Nat) : ProcessMessage
deriving DecidableEq

/-- Embedding of ProcessMonitor::MonitorSIGTRAP. The ptrace event-message
fetch is abstracted as an oracle (some value on success, none on failure;
on failure the source stores (unsigned long)-1, i.e. 2^64 - 1). The result
pairs the message that the switch leaves in the local ProcessMessage with
the list of Resume calls the classification itself issues: only the
system-call-stop cases call monitor->Resume(pid, eResumeSignalNone)
(modelled as signal none), and they leave the message default-constructed,
i.e. invalid. The default case asserts and also leaves the message
invalid. -/
def MonitorSIGTRAP (getEventMessage : Option Nat) (info : Siginfo) (pid : Nat) :
    ProcessMessage × List (Nat × Option Nat) :=
  if info.si_code = sigtrapCloneCode then
    (ProcessMessage.newThread pid (getEventMessage.getD (2 ^ 64 - 1)), [])
  else if info.si_code = sigtrapExecCode then
    (ProcessMessage.execMsg pid, [])
  else if info.si_code = sigtrapExitCode then
    (ProcessMessage.limbo pid (getEventMessage.getD (2 ^ 64 - 1) / 2 ^ 8), [])
  else if info.si_code = 0 ∨ info.si_code = TRAP_TRACE then
    (ProcessMessage.trace pid, [])
  else if info.si_code = SI_KERNEL ∨ info.si_code = TRAP_BRKPT then
    (ProcessMessage.breakMsg pid, [])
  else if info.si_code = TRAP_HWBKPT then
    (ProcessMessage.watch pid info.si_addr, [])
  else if info.si_code = sigtrapSyscallCode ∨ info.si_code = sigtrapSyscallTracedCode then
    (ProcessMessage.invalid, [(pid, none)])
  else
    (ProcessMessage.invalid, [])

/-- Embedding of ProcessMonitor::MonitorSignal. The CrashReason
computation (GetCrashReason, outside this translation unit) is abstracted
as a function of the siginfo. User-origin or tkill-origin signals yield
SignalDelivered when the sender pid is this process (getpid()) and Signal
otherwise; SIGSEGV, SIGILL, SIGFPE and SIGBUS with any other origin yield
Crash with the computed reason and the fault address from si_addr; all
other signals yield Signal. -/
def MonitorSignal (getCrashReason : Siginfo → Nat) (selfPid : Nat)
    (info : Siginfo) (pid : Nat) : ProcessMessage :=
  if info.si_code = SI_TKILL ∨ info.si_code = SI_USER then
    if info.si_pid = selfPid then
      ProcessMessage.signalDelivered pid info.si_signo
    else
      ProcessMessage.signal pid info.si_signo
  else if info.si_signo = SIGSEGV ∨ info.si_signo = SIGILL ∨
      info.si_signo = SIGFPE ∨ info.si_signo = SIGBUS then
    ProcessMessage.crash pid (getCrashReason info) info.si_signo info.si_addr
  else
    ProcessMessage.signal pid info.si_signo

/-- Observable outcome of one wait wake-up: the SendMessage calls to the
process object, the Resume calls issued, and the value MonitorCallback
returns (true requests that monitoring stop). -/
structure MonitorOutcome where
  messages : List ProcessMessage
  resumes : List (Nat × Option Nat)
  stopMonitoring : Bool
deriving DecidableEq

/-- Embedding of ProcessMonitor::MonitorCallback. Inputs: the
thread-group leader pid the monitor stores (process->GetID()), the
debugger's own pid (getpid()), the crash-reason function, the result of
the funnelled GetSignalInfo (the siginfo on success, the captured ptrace
errno on failure), the event-message oracle, and the wait result
(pid, exited, signal, status). On exited it sends Exit and stops iff the
pid is the leader; on signal-info failure with EINVAL it resumes the pid
with SIGSTOP and continues; on any other signal-info failure it stops only
for the leader, in which case it also sends Exit; otherwise it dispatches
on si_signo to MonitorSIGTRAP or MonitorSignal and sends the resulting
message. -/
def MonitorCallback (leaderPid selfPid : Nat) (getCrashReason : Siginfo → Nat)
    (getSignalInfo : Except Nat Siginfo) (getEventMessage : Option Nat)
    (pid : Nat) (exited : Bool) (signal : Int) (status : Nat) : MonitorOutcome :=
  if exited then
    { messages := [ProcessMessage.exit pid status], resumes := [],
      stopMonitoring := decide (pid = leaderPid) }
  else
    match getSignalInfo with
    | Except.error e =>
      if e = EINVAL then
        { messages := [], resumes := [(pid, some SIGSTOP)], stopMonitoring := false }
      else if pid = leaderPid then
        { messages := [ProcessMessage.exit pid status], resumes := [], stopMonitoring := true }
      else
        { messages := [], resumes := [], stopMonitoring := false }
    | Except.ok info =>
      if info.si_signo = SIGTRAP then
        { messages := [(MonitorSIGTRAP getEventMessage info pid).1],
          resumes := (MonitorSIGTRAP getEventMessage info pid).2,
          stopMonitoring := false }
      else
        { messages := [MonitorSignal getCrashReason selfPid info pid], resumes := [],
          stopMonitoring := false }

/-- Claim C2. System-call stops are absorbed: on a wake-up whose signal
info has si_signo = SIGTRAP and si_code equal to SIGTRAP or SIGTRAP|0x80,
the monitor issues exactly one Resume of that pid with no signal and the
only message reaching the process object is the default-constructed
invalid placeholder, i.e. none of the event variants; and on every
possible wake-up the classifier sends at most one message. -/
theorem monitorCallback_syscall_stop_absorbed (leaderPid selfPid : Nat)
    (gcr : Siginfo → Nat) (gem : Option Nat) (pid : Nat) (signal : Int)
    (status : Nat) (info : Siginfo)
    (hsig : info.si_signo = SIGTRAP)
    (hcode : info.si_code = sigtrapSyscallCode ∨ info.si_code = sigtrapSyscallTracedCode) :
    ((MonitorCallback leaderPid selfPid gcr (Except.ok info) gem pid false signal
        status).resumes = [(pid, none)] ∧
      ∀ m ∈ (MonitorCallback leaderPid selfPid gcr (Except.ok info) gem pid false signal
        status).messages, m = ProcessMessage.invalid) ∧
    ∀ (lp sp p st : Nat) (g : Siginfo → Nat) (ge : Option Nat) (ex : Bool) (sg : Int)
      (gsi : Except Nat Siginfo),
      (MonitorCallback lp sp g gsi ge p ex sg st).messages.length ≤ 1 := by
  constructor
  · have hcode1 : ¬info.si_code = sigtrapCloneCode := by
      rcases hcode with h | h <;> rw [h] <;> decide
    have hcode2 : ¬info.si_code = sigtrapExecCode := by
      rcases hcode with h | h <;> rw [h] <;> decide
    have hcode3 : ¬info.si_code = sigtrapExitCode := by
      rcases hcode with h | h <;> rw [h] <;> decide
    have hcode4 : ¬(info.si_code = 0 ∨ info.si_code = TRAP_TRACE) := by
      rcases hcode with h | h <;> rw [h] <;> decide
    have hcode5 : ¬(info.si_code = SI_KERNEL ∨ info.si_code = TRAP_BRKPT) := by
      rcases hcode with h | h <;> rw [h] <;> decide
    have hcode6 : ¬info.si_code = TRAP_HWBKPT := by
      rcases hcode with h | h <;> rw [h] <;> decide
    constructor
    · simp [MonitorCallback, MonitorSIGTRAP, hsig, hcode, hcode1, hcode2, hcode3,
        hcode4, hcode5, hcode6]
    · intro m hm
      simp [MonitorCallback, MonitorSIGTRAP, hsig, hcode, hcode1, hcode2, hcode3,
        hcode4, hcode5, hcode6] at hm
      exact hm
  · intro lp sp p st g ge ex sg gsi
    rcases ex with _ | _
    · rcases gsi with e | info2
      · by_cases h1 : e = EINVAL
        · simp [MonitorCallback, h1]
        · by_cases h2 : p = lp <;> simp [MonitorCallback, h1, h2]
      · by_cases h3 : info2.si_signo = SIGTRAP <;> simp [MonitorCallback, h3]
    · simp [MonitorCallback]

/-- Witness for claim C2 at a concrete system-call-stop wake-up. -/
theorem monitorCallback_syscall_stop_absorbed_witness :
    ((⟨5, 133, 42, 0⟩ : Siginfo).si_signo = SIGTRAP ∧
      ((⟨5, 133, 42, 0⟩ : Siginfo).si_code = sigtrapSyscallCode ∨
        (⟨5, 133, 42, 0⟩ : Siginfo).si_code = sigtrapSyscallTracedCode)) ∧
    (((MonitorCallback 10 20 (fun _ => 0) (Except.ok ⟨5, 133, 42, 0⟩) none 10 false 5
        0).resumes = [(10, none)] ∧
      ∀ m ∈ (MonitorCallback 10 20 (fun _ => 0) (Except.ok ⟨5, 133, 42, 0⟩) none 10 false 5
        0).messages, m = ProcessMessage.invalid) ∧
    ∀ (lp sp p st : Nat) (g : Siginfo → Nat) (ge : Option Nat) (ex : Bool) (sg : Int)
      (gsi : Except Nat Siginfo),
      (MonitorCallback lp sp g gsi ge p ex sg st).messages.length ≤ 1) :=
  ⟨⟨rfl, Or.inr rfl⟩,
    monitorCallback_syscall_stop_absorbed 10 20 (fun _ => 0) none 10 5 0
      ⟨5, 133, 42, 0⟩ rfl (Or.inr rfl)⟩

/-- Claim C5. Signal-info failure handling on a stopped (non-exited)
wake-up: with errno EINVAL the tracee is in group-stop, so the monitor
resumes that pid with SIGSTOP, sends nothing to the process object and
keeps monitoring; with any other errno and the pid equal to the
thread-group leader it sends Exit(pid, status) and stops monitoring. -/
theorem monitorCallback_siginfo_failure (leaderPid selfPid : Nat)
    (gcr : Siginfo → Nat) (gem : Option Nat) (pid : Nat) (signal : Int)
    (status e : Nat) :
    (e = EINVAL →
      MonitorCallback leaderPid selfPid gcr (Except.error e) gem pid false signal status =
        { messages := [], resumes := [(pid, some SIGSTOP)], stopMonitoring := false }) ∧
    (e ≠ EINVAL → pid = leaderPid →
      (MonitorCallback leaderPid selfPid gcr (Except.error e) gem pid false signal
          status).messages = [ProcessMessage.exit pid status] ∧
        (MonitorCallback leaderPid selfPid gcr (Except.error e) gem pid false signal
          status).stopMonitoring = true) := by
  constructor
  · intro h
    simp [MonitorCallback, h]
  · intro h hl
    simp [MonitorCallback, h, hl]

/-- Witness for claim C5 at concrete errno values 22 (EINVAL) and 3
(ESRCH). -/
theorem monitorCallback_siginfo_failure_witness :
    ((22 : Nat) = EINVAL ∧ (3 : Nat) ≠ EINVAL ∧ (7 : Nat) = 7) ∧
    (MonitorCallback 7 9 (fun _ => 0) (Except.error 22) none 7 false 19 5 =
      { messages := [], resumes := [(7, some SIGSTOP)], stopMonitoring := false }) ∧
    ((MonitorCallback 7 9 (fun _ => 0) (Except.error 3) none 7 false 19 5).messages =
        [ProcessMessage.exit 7 5] ∧
      (MonitorCallback 7 9 (fun _ => 0) (Except.error 3) none 7 false 19 5).stopMonitoring =
        true) :=
  ⟨⟨rfl, by decide, rfl⟩,
    (monitorCallback_siginfo_failure 7 9 (fun _ => 0) none 7 19 5 22).1 rfl,
    (monitorCallback_siginfo_failure 7 9 (fun _ => 0) none 7 19 5 3).2 (by decide) rfl⟩

/-- Claim C6. Classification of non-SIGTRAP stops: a user-origin or
tkill-origin si_code yields SignalDelivered when the sending pid is the
debugger's own pid and Signal otherwise; SIGSEGV, SIGILL, SIGFPE or SIGBUS
with any other si_code yields Crash carrying the reason computed from the
siginfo and the fault address si_addr; every other signal yields
Signal(pid, signo). -/
theorem monitorSignal_classification (gcr : Siginfo → Nat) (selfPid : Nat)
    (info : Siginfo) (pid : Nat) :
    ((info.si_code = SI_USER ∨ info.si_code = SI_TKILL →
      MonitorSignal gcr selfPid info pid =
        if info.si_pid = selfPid then ProcessMessage.signalDelivered pid info.si_signo
        else ProcessMessage.signal pid info.si_signo)) ∧
    (info.si_code ≠ SI_USER → info.si_code ≠ SI_TKILL →
      (info.si_signo = SIGSEGV ∨ info.si_signo = SIGILL ∨
        info.si_signo = SIGFPE ∨ info.si_signo = SIGBUS) →
      MonitorSignal gcr selfPid info pid =
        ProcessMessage.crash pid (gcr info) info.si_signo info.si_addr) ∧
    (info.si_code ≠ SI_USER → info.si_code ≠ SI_TKILL →
      info.si_signo ≠ SIGSEGV → info.si_signo ≠ SIGILL →
      info.si_signo ≠ SIGFPE → info.si_signo ≠ SIGBUS →
      MonitorSignal gcr selfPid info pid = ProcessMessage.signal pid info.si_signo) := by
  refine ⟨?_, ?_, ?_⟩
  · intro h
    have hc : info.si_code = SI_TKILL ∨ info.si_code = SI_USER := h.symm
    simp only [MonitorSignal, if_pos hc]
  · intro h1 h2 h3
    have hc : ¬(info.si_code = SI_TKILL ∨ info.si_code = SI_USER) := by
      intro hh
      rcases hh with hh | hh
      · exact h2 hh
      · exact h1 hh
    simp only [MonitorSignal, if_neg hc, if_pos h3]
  · intro h1 h2 h3 h4 h5 h6
    have hc : ¬(info.si_code = SI_TKILL ∨ info.si_code = SI_USER) := by
      intro hh
      rcases hh with hh | hh
      · exact h2 hh
      · exact h1 hh
    have hs : ¬(info.si_signo = SIGSEGV ∨ info.si_signo = SIGILL ∨
        info.si_signo = SIGFPE ∨ info.si_signo = SIGBUS) := by
      intro hh
      rcases hh with hh | hh | hh | hh
      · exact h3 hh
      · exact h4 hh
      · exact h5 hh
      · exact h6 hh
    simp only [MonitorSignal, if_neg hc, if_neg hs]

/-- Witness for claim C6 at three concrete siginfos: a tkill-origin
SIGSTOP sent by the debugger itself, a kernel SIGSEGV, and a plain
SIGUSR1 (signal 10). -/
theorem monitorSignal_classification_witness :
    (((⟨19, -6, 9, 0⟩ : Siginfo).si_code = SI_USER ∨
        (⟨19, -6, 9, 0⟩ : Siginfo).si_code = SI_TKILL) ∧
      ((⟨11, 1, 0, 64⟩ : Siginfo).si_code ≠ SI_USER ∧
        (⟨11, 1, 0, 64⟩ : Siginfo).si_code ≠ SI_TKILL ∧
        ((⟨11, 1, 0, 64⟩ : Siginfo).si_signo = SIGSEGV ∨
          (⟨11, 1, 0, 64⟩ : Siginfo).si_signo = SIGILL ∨
          (⟨11, 1, 0, 64⟩ : Siginfo).si_signo = SIGFPE ∨
          (⟨11, 1, 0, 64⟩ : Siginfo).si_signo = SIGBUS)) ∧
      ((⟨10, 128, 0, 0⟩ : Siginfo).si_code ≠ SI_USER ∧
        (⟨10, 128, 0, 0⟩ : Siginfo).si_signo ≠ SIGSEGV)) ∧
    MonitorSignal (fun _ => 3) 9 ⟨19, -6, 9, 0⟩ 42 =
      (if (⟨19, -6, 9, 0⟩ : Siginfo).si_pid = 9 then ProcessMessage.signalDelivered 42 19
        else ProcessMessage.signal 42 19) ∧
    MonitorSignal (fun _ => 3) 9 ⟨11, 1, 0, 64⟩ 42 = ProcessMessage.crash 42 3 11 64 ∧
    MonitorSignal (fun _ => 3) 9 ⟨10, 128, 0, 0⟩ 42 = ProcessMessage.signal 42 10 :=
  ⟨⟨Or.inr rfl, ⟨by decide, by decide, Or.inl rfl⟩, ⟨by decide, by decide⟩⟩,
    (monitorSignal_classification (fun _ => 3) 9 ⟨19, -6, 9, 0⟩ 42).1 (Or.inr rfl),
    (monitorSignal_classification (fun _ => 3) 9 ⟨11, 1, 0, 64⟩ 42).2.1
      (by decide) (by decide) (Or.inl rfl),
    (monitorSignal_classification (fun _ => 3) 9 ⟨10, 128, 0, 0⟩ 42).2.2
      (by decide) (by decide) (by decide) (by decide) (by decide) (by decide)⟩

/-! Operation funnel and teardown. -/

/-- Tags for the concrete Operation subclasses the monitor funnels to the
owner task. -/
inductive OperationTag where
  | readOp
  | writeOp
  | readRegOp
  | writeRegOp
  | readGPROp
  | readFPROp
  | writeGPROp
  | writeFPROp
  | readRegisterSetOp
  | writeRegisterSetOp
  | readThreadPointerOp
  | resumeOp
  | singleStepOp
  | siginfoOp
  | eventMessageOp
  | detachOp
deriving DecidableEq

/-- The operation slot holds a pointer to an Operation; none models the
null pointer. The sentinel the teardown path enqueues is the static
Operation pointer EXIT_OPERATION, initialized to nullptr and never
reassigned. -/
def EXIT_OPERATION : Option OperationTag := none

/-- Possible behaviours of one pass of a serve loop body once the pending
semaphore has been won: execute the slot operation and continue looping,
leave the loop, or dereference a null operation pointer. -/
inductive ServeAction where
  | executeAndContinue
  | leaveLoop
  | nullDeref
deriving DecidableEq

/-- Embedding of the body of the for(;;) loop in
ProcessMonitor::ServeOperation. After sem_wait(m_operation_pending)
succeeds, the body unconditionally runs m_operation->Execute(monitor) and
posts m_operation_done; it contains no comparison of the slot with
EXIT_OPERATION and no break statement, so a non-null slot is executed and
the loop continues, and a null slot (the EXIT_OPERATION sentinel) is
dereferenced. -/
def serveOperationStep (slot : Option OperationTag) : ServeAction :=
  match slot with
  | some _ => ServeAction.executeAndContinue
  | none => ServeAction.nullDeref

/-- Claim C1 (refuted by the code; bug surface). When destruction
(StopMonitor, StopOpThread) enqueues the EXIT_OPERATION sentinel through
DoOperation, the owner task's serve loop does not leave: the step on the
sentinel slot is a null-pointer dereference, and no slot value whatsoever
makes the loop body leave the loop, so the subsequent join cannot
complete. The serve loop of this source therefore never terminates on the
sentinel, contradicting the claim. -/
theorem serveOperation_never_leaves_loop :
    serveOperationStep EXIT_OPERATION = ServeAction.nullDeref ∧
    ∀ slot, serveOperationStep slot ≠ ServeAction.leaveLoop := by
  constructor
  · rfl
  · intro slot
    cases slot <;> simp [serveOperationStep]

/-! Launch bootstrap. -/

/-- Child-side launch failure causes, in the order of the recognized child
exit status enum in ProcessMonitor::Launch. -/
inductive ChildExitCause where
  | ptraceFailed
  | dupStdinFailed
  | dupStdoutFailed
  | dupStderrFailed
  | chdirFailed
  | execFailed
  | setGidFailed
deriving DecidableEq, Fintype

/-- Exit code the child uses for each failure cause: the anonymous enum
starts at ePtraceFailed = 1 and counts up. -/
def childExitCode : ChildExitCause → Nat
  | ChildExitCause.ptraceFailed => 1
  | ChildExitCause.dupStdinFailed => 2
  | ChildExitCause.dupStdoutFailed => 3
  | ChildExitCause.dupStderrFailed => 4
  | ChildExitCause.chdirFailed => 5
  | ChildExitCause.execFailed => 6
  | ChildExitCause.setGidFailed => 7

/-- Error string the parent stores for a given child exit status, per the
WIFEXITED switch in ProcessMonitor::Launch. -/
def launchErrorString : Nat → String
  | 1 => "Child ptrace failed."
  | 2 => "Child open stdin failed."
  | 3 => "Child open stdout failed."
  | 4 => "Child open stderr failed."
  | 5 => "Child failed to set working directory."
  | 6 => "Child exec failed."
  | 7 => "Child setgid failed."
  | _ => "Child returned unknown exit status."

/-- Outcome of the parent's WIFEXITED branch for a child exit status:
SetErrorToGenericError plus the switch's string, then goto FINISH returns
m_error.Success(), which is false; the pair is (construction succeeded,
error string). -/
def launchResultOnChildExit (status : Nat) : Bool × String :=
  (false, launchErrorString status)

/-- Claim C8. Every child-side launch failure exits with a distinct code
in 1..7, the parent maps each such code to a distinct human-readable
error string, and construction fails on each of them. -/
theorem launch_child_exit_codes_distinct :
    (∀ f, 1 ≤ childExitCode f ∧ childExitCode f ≤ 7) ∧
    Function.Injective childExitCode ∧
    (∀ f g, f ≠ g →
      launchErrorString (childExitCode f) ≠ launchErrorString (childExitCode g)) ∧
    (∀ f, (launchResultOnChildExit (childExitCode f)).1 = false) := by
  refine ⟨by decide, by decide, by decide, by decide⟩

/-- Embedding of the envp propagation in ProcessMonitor::Launch: if the
caller passes a null envp, or an envp whose first entry is null, the
launch substitutes the debugger's own environ before the child execve;
the envp argument models the null-terminated array as none for a null
pointer and as the list of entries before the terminator otherwise. -/
def effectiveEnvp (envp : Option (List String)) (environ : List String) : List String :=
  match envp with
  | none => environ
  | some entries => if entries.isEmpty then environ else entries

/-- Claim C9. A null envp, or an envp whose first entry is null, makes the
child execve run with the debugger's own environment rather than an empty
one; any other envp is passed through unchanged. -/
theorem launch_null_envp_uses_environ :
    ∀ environ : List String,
      effectiveEnvp none environ = environ ∧
      effectiveEnvp (some []) environ = environ ∧
      ∀ e rest, effectiveEnvp (some (e :: rest)) environ = e :: rest := by
  intro environ
  exact ⟨rfl, rfl, fun e rest => rfl⟩

/-! Hardware debug register operations. -/

/-- Observable effects of ReadDBGROperation::Execute: the two watchpoint
and breakpoint counts extracted as dbg_info & 0xff from the two
PTRACE_GETREGSET reads, and the write it performs to a result flag. The
two ptrace calls' return values are discarded by the source, and the
operation holds no result reference, so the result-flag write is none
whether or not the underlying requests succeed. -/
structure ReadDBGREffect where
  count_wp : Nat
  count_bp : Nat
  resultWrite : Option Bool
deriving DecidableEq

/-- Embedding of ReadDBGROperation::Execute. -/
def readDBGRExecute (ptraceOkWatch ptraceOkBreak : Bool)
    (dbgInfoWatch dbgInfoBreak : Nat) : ReadDBGREffect :=
  { count_wp := dbgInfoWatch % 256, count_bp := dbgInfoBreak % 256, resultWrite := none }

/-- Embedding of ProcessMonitor::ReadHardwareDebugInfo: bool result =
true, run the operation through the funnel, return result; the returned
triple is (watch count, break count, result). -/
def ReadHardwareDebugInfo (ptraceOkWatch ptraceOkBreak : Bool)
    (dbgInfoWatch dbgInfoBreak : Nat) : Nat × Nat × Bool :=
  ((readDBGRExecute ptraceOkWatch ptraceOkBreak dbgInfoWatch dbgInfoBreak).count_wp,
    (readDBGRExecute ptraceOkWatch ptraceOkBreak dbgInfoWatch dbgInfoBreak).count_bp,
    ((readDBGRExecute ptraceOkWatch ptraceOkBreak dbgInfoWatch dbgInfoBreak).resultWrite).getD
      true)

/-- Embedding of WriteDBGROperation::Execute: one PTRACE_SETREGSET whose
return value is discarded; the operation holds no result reference, so no
result flag is written whether or not the request succeeds. -/
def writeDBGRExecute (ptraceOk : Bool) : Option Bool := none

/-- Embedding of ProcessMonitor::WriteHardwareDebugRegs: bool result =
true, run the operation, return result. -/
def WriteHardwareDebugRegs (ptraceOk : Bool) : Bool :=
  (writeDBGRExecute ptraceOk).getD true

/-- Claim C10. ReadHardwareDebugInfo and WriteHardwareDebugRegs report
success to the caller regardless of whether the underlying register-set
ptrace requests succeed: the result flag starts true, the executed
operations never write it, and the ptrace results inside them are
discarded. -/
theorem hardwareDebug_ops_always_succeed :
    ∀ (okw okb okx : Bool) (w b : Nat),
      (ReadHardwareDebugInfo okw okb w b).2.2 = true ∧
      WriteHardwareDebugRegs okx = true := by
  intro okw okb okx w b
  exact ⟨rfl, rfl⟩
